import Mathlib

/-!
Verification of the ingredient request handlers of `wger/nutrition/views/ingredient.py`:
the moderation state machine (`accept`, `decline`), the cached single-item lookup
(`view`), the pending-review list query, the public overview query and the
demo-user gate on the create view.

The Django objects are shallowly embedded: persistent storage is a list of
`Ingredient` records looked up by primary key (`get_object_or_404` becomes an
`Option`-returning lookup), the external cache is an association list with
get/set, and the notification collaborator is a log of sent events.  Handlers
are total functions from a server state to a response paired with the new
server state; the lookup additionally reports how many storage reads and cache
writes it performed, so that cache-hit properties can be stated.
-/

namespace Wger

/-- The lifecycle status of an ingredient record:
`STATUS_PENDING`, `STATUS_ACCEPTED`, `STATUS_DECLINED`. -/
inductive Status where
  | pending
  | accepted
  | declined
deriving DecidableEq, Repr

/-- An ingredient record as stored in persistent storage: primary key, lifecycle
status, creation timestamp, language, and the nutritional value fields listed in
the source (`name`, `energy`, `protein`, `carbohydrates`, `carbohydrates_sugar`,
`fat`, `fat_saturated`, `fibres`, `sodium`).  The nutritional fields are opaque
to the handlers under verification; they only matter for frame conditions. -/
structure Ingredient where
  id : Nat
  status : Status
  creation_date : Int
  language : Nat
  name : String
  energy : Int
  protein : Int
  carbohydrates : Int
  carbohydrates_sugar : Int
  fat : Int
  fat_saturated : Int
  fibres : Int
  sodium : Int
deriving DecidableEq, Repr

/-- `request.user.userprofile`: only the `is_temporary` (demo user) flag is read
by this file. -/
structure UserProfile where
  is_temporary : Bool
deriving DecidableEq, Repr

/-- `request.user`. -/
structure User where
  userprofile : UserProfile
deriving DecidableEq, Repr

/-- The request context: the requesting user and whether the caller holds the
`nutrition.add_ingredient` privilege checked by the `permission_required`
decorator on `accept` and `decline`. -/
structure Request where
  user : User
  has_add_ingredient_perm : Bool
deriving DecidableEq, Repr

/-- Persistent storage: the table of ingredient rows. -/
abbrev Db := List Ingredient

/-- `get_object_or_404(Ingredient, pk=pk)` without the 404 part: the first (and
in a well-formed table, only) row whose primary key equals `pk`. -/
def getByPk (db : Db) (pk : Nat) : Option Ingredient :=
  db.find? (fun r => r.id == pk)

/-- `ingredient.save()`: update-in-place of the row with the instance's primary
key; every other row is untouched. -/
def save (db : Db) (r : Ingredient) : Db :=
  db.map (fun x => if x.id == r.id then r else x)

/-- The external cache store, a black box supporting get-by-key and set-by-key:
modelled as an association list from keys to record snapshots. -/
abbrev Cache := List (Nat × Ingredient)

/-- `cache.get(key)`: the snapshot stored under `key`, if any. -/
def cache_get (c : Cache) (k : Nat) : Option Ingredient :=
  (c.find? (fun p => p.1 == k)).map Prod.snd

/-- `cache.set(key, value)`: store `v` under `k`, overwriting any previous
entry for that key. -/
def cache_set (c : Cache) (k : Nat) (v : Ingredient) : Cache :=
  (k, v) :: c.filter (fun p => p.1 != k)

/-- Modelled from the spec: `cache_mapper.get_ingredient_key` lives in
`wger.utils.cache`, which is not under `src/`.  The spec says the lookup
"computes a cache key from the identifier"; the key derivation is modelled as
the identity injection on the primary key. -/
def get_ingredient_key (pk : Nat) : Nat := pk

/-- Modelled from the spec: the same key mapper applied to a record object
("the record's own derived key") derives the key from the record's primary
key. -/
def get_ingredient_key_of (r : Ingredient) : Nat := get_ingredient_key r.id

/-- Modelled from the spec: `Ingredient.get_absolute_url` lives in
`wger.nutrition.models`, not under `src/`; the spec calls it "the record's
canonical location".  Modelled as a URL determined by the primary key. -/
def get_absolute_url (r : Ingredient) : String :=
  "/nutrition/ingredient/" ++ toString r.id ++ "/"

/-- The full server-side state the handlers touch: persistent storage, the
external cache, and the log of notification sends (each parameterized by the
record's identifier and the request context it was sent with). -/
structure ServerState where
  db : Db
  cache : Cache
  sent_emails : List (Nat × Request)
deriving DecidableEq, Repr

/-- Modelled from the spec: `Ingredient.send_email(request)` lives in
`wger.nutrition.models`, not under `src/`.  The spec describes it as the
external notification collaborator that "triggers an external notification
side effect (e.g., emails an interested party) parameterized by the current
request context"; modelled as appending exactly one notification event to the
log. -/
def send_email (s : ServerState) (r : Ingredient) (request : Request) : ServerState :=
  { s with sent_emails := s.sent_emails ++ [(r.id, request)] }

/-- The responses the handlers under verification can produce.
`redirectToLogin` is what the `permission_required` decorator produces for a
caller without the privilege; `notFound` is the Http404 raised by
`get_object_or_404`. -/
inductive Response where
  | redirectToLogin
  | forbidden
  | notFound
  | redirect (url : String)
deriving DecidableEq, Repr

/-- `accept(request, pk)`: permission gate, load by primary key (404 when
absent), set status to accepted, save, send the notification email, redirect
to the record's canonical URL. -/
def accept (request : Request) (pk : Nat) (s : ServerState) : Response × ServerState :=
  if !request.has_add_ingredient_perm then (Response.redirectToLogin, s)
  else
    match getByPk s.db pk with
    | none => (Response.notFound, s)
    | some ingredient0 =>
      let ingredient := { ingredient0 with status := Status.accepted }
      let s1 : ServerState := { s with db := save s.db ingredient }
      let s2 := send_email s1 ingredient request
      (Response.redirect (get_absolute_url ingredient), s2)

/-- `decline(request, pk)`: permission gate, load by primary key (404 when
absent), set status to declined, save, redirect.  No notification is sent and
— despite the docstring "Declines and deletes" — no row is removed. -/
def decline (request : Request) (pk : Nat) (s : ServerState) : Response × ServerState :=
  if !request.has_add_ingredient_perm then (Response.redirectToLogin, s)
  else
    match getByPk s.db pk with
    | none => (Response.notFound, s)
    | some ingredient0 =>
      let ingredient := { ingredient0 with status := Status.declined }
      let s1 : ServerState := { s with db := save s.db ingredient }
      (Response.redirect (get_absolute_url ingredient), s1)

/-- The result of the single-item lookup `view(request, id)`: either the 404
page, or the rendered detail page for an ingredient, instrumented with the
number of persistent-storage reads and cache writes the call performed. -/
inductive ViewResult where
  | notFound
  | rendered (ingredient : Ingredient) (storage_reads cache_writes : Nat)
deriving DecidableEq, Repr

/-- `view(request, id)`: try the cache under the key derived from `id`; on a
hit return the cached snapshot (no storage read, no cache write); on a miss
load from storage (404 when absent) and populate the cache under the fetched
record's own derived key. -/
def view (request : Request) (id : Nat) (s : ServerState) : ViewResult × ServerState :=
  match cache_get s.cache (get_ingredient_key id) with
  | some ingredient => (ViewResult.rendered ingredient 0 0, s)
  | none =>
    match getByPk s.db id with
    | none => (ViewResult.notFound, s)
    | some ingredient =>
      (ViewResult.rendered ingredient 1 1,
        { s with cache := cache_set s.cache (get_ingredient_key_of ingredient) ingredient })

/-- `PendingIngredientListView.get_queryset`:
`Ingredient.objects.filter(status=STATUS_PENDING).order_by('-creation_date')` —
the pending rows, sorted by creation timestamp descending. -/
def pending_get_queryset (db : Db) : List Ingredient :=
  (db.filter (fun r => r.status == Status.pending)).mergeSort
    (fun a b => decide (b.creation_date ≤ a.creation_date))

/-- Modelled from the spec: the manager query `Ingredient.objects.accepted()`
lives in `wger.nutrition.models`, not under `src/`; per the spec's lifecycle
model it restricts the table to records in the `accepted` state. -/
def objects_accepted (db : Db) : List Ingredient :=
  db.filter (fun r => r.status == Status.accepted)

/-- `IngredientListView.get_queryset`:
`Ingredient.objects.accepted().filter(language__in=languages).only('id', 'name')`.
`only(...)` limits which columns are loaded eagerly and does not change the row
set, so it is not modelled. -/
def ingredient_list_get_queryset (db : Db) (languages : List Nat) : List Ingredient :=
  (objects_accepted db).filter (fun r => languages.contains r.language)

/-- `IngredientCreateView.dispatch`: demo users are rejected with
`HttpResponseForbidden()` before the framework's dispatch (and with it all form
processing) runs; everyone else falls through to `super().dispatch`,
represented by the `superDispatch` parameter. -/
def ingredient_create_dispatch
    (superDispatch : Request → ServerState → Response × ServerState)
    (request : Request) (s : ServerState) : Response × ServerState :=
  if request.user.userprofile.is_temporary then (Response.forbidden, s)
  else superDispatch request s

/-! ## Helper lemmas about the storage and cache collaborators -/

/-- A record found under primary key `pk` carries that primary key. -/
theorem getByPk_id_eq {db : Db} {pk : Nat} {r : Ingredient}
    (h : getByPk db pk = some r) : r.id = pk := by
  simp only [getByPk] at h
  simpa using List.find?_some h

/-- Saving a record whose primary key already resolves makes that key resolve
to the saved record. -/
theorem getByPk_save_self {db : Db} {pk : Nat} {r0 : Ingredient} (r : Ingredient)
    (h : getByPk db pk = some r0) (hid : r.id = pk) :
    getByPk (save db r) pk = some r := by
  induction db with
  | nil => simp [getByPk] at h
  | cons x t ih =>
    by_cases hx : x.id = pk
    · simp [getByPk, save, hx, hid]
    · simp only [getByPk, save, List.map_cons, List.find?_cons] at h ⊢
      have hx' : (x.id == pk) = false := by simp [hx]
      rw [hx'] at h
      by_cases hxr : x.id = r.id
      · exact absurd (hxr.trans hid) hx
      · have h1 : (if x.id == r.id then r else x) = x := by simp [hxr]
        rw [h1, hx']
        exact ih h

/-- Saving a record does not disturb lookups under any other primary key. -/
theorem getByPk_save_other {db : Db} (r : Ingredient) {pk' : Nat}
    (h : pk' ≠ r.id) : getByPk (save db r) pk' = getByPk db pk' := by
  induction db with
  | nil => rfl
  | cons x t ih =>
    simp only [getByPk, save, List.map_cons, List.find?_cons] at ih ⊢
    by_cases hxr : x.id = r.id
    · have h1 : (if x.id == r.id then r else x) = r := by simp [hxr]
      have h2 : (r.id == pk') = false := by simpa using Ne.symm h
      have h3 : (x.id == pk') = false := by rw [hxr]; exact h2
      rw [h1, h2, h3]
      exact ih
    · have h1 : (if x.id == r.id then r else x) = x := by simp [hxr]
      rw [h1]
      cases hp : (x.id == pk') with
      | true => rfl
      | false => exact ih

/-- Saving never inserts or removes rows. -/
theorem length_save (db : Db) (r : Ingredient) : (save db r).length = db.length := by
  simp [save]

/-- A freshly set cache key resolves to the value just stored. -/
theorem cache_get_cache_set_self (c : Cache) (k : Nat) (v : Ingredient) :
    cache_get (cache_set c k v) k = some v := by
  simp [cache_get, cache_set]

/-- Unfolding of `accept` when the caller has the privilege and the record
exists: status set to accepted, row saved, exactly one notification appended,
cache untouched, redirect to the canonical URL. -/
theorem accept_eq_of_found {request : Request} {pk : Nat} {s : ServerState} {r : Ingredient}
    (hperm : request.has_add_ingredient_perm = true)
    (hr : getByPk s.db pk = some r) :
    accept request pk s =
      (Response.redirect (get_absolute_url { r with status := Status.accepted }),
       { s with db := save s.db { r with status := Status.accepted },
                sent_emails := s.sent_emails ++ [(pk, request)] }) := by
  have hid : r.id = pk := getByPk_id_eq hr
  simp [accept, hperm, hr, send_email, hid]

/-- Unfolding of `decline` when the caller has the privilege and the record
exists: status set to declined, row saved, no notification, cache untouched,
redirect to the canonical URL. -/
theorem decline_eq_of_found {request : Request} {pk : Nat} {s : ServerState} {r : Ingredient}
    (hperm : request.has_add_ingredient_perm = true)
    (hr : getByPk s.db pk = some r) :
    decline request pk s =
      (Response.redirect (get_absolute_url { r with status := Status.declined }),
       { s with db := save s.db { r with status := Status.declined } }) := by
  simp [decline, hperm, hr]

/-! ## Concrete sample data for the witnesses -/

/-- A concrete pending ingredient record. -/
def sampleIngredient : Ingredient :=
  { id := 1, status := Status.pending, creation_date := 100, language := 2,
    name := "Apple", energy := 52, protein := 0, carbohydrates := 14,
    carbohydrates_sugar := 10, fat := 0, fat_saturated := 0, fibres := 2, sodium := 0 }

/-- A concrete already-accepted ingredient record. -/
def sampleAccepted : Ingredient :=
  { sampleIngredient with
      id := 2
      status := Status.accepted
      creation_date := 200
      name := "Bread" }

/-- A request whose caller holds the add-ingredient privilege and is not a
demo user. -/
def sampleRequest : Request :=
  { user := { userprofile := { is_temporary := false } }, has_add_ingredient_perm := true }

/-- A server state with one pending and one accepted record, an empty cache and
no notifications sent. -/
def sampleState : ServerState :=
  { db := [sampleIngredient, sampleAccepted], cache := [], sent_emails := [] }

/-! ## The claims -/

/-- Claim C1: for every existing record whose status is pending, `accept(id)`
sets the record's status to accepted, persists the change, triggers exactly
one notification send (parameterized by the request context), leaves every
other field of the record unchanged, and leaves every other row and the cache
untouched. -/
theorem accept_pending_spec (request : Request) (pk : Nat) (s : ServerState)
    (r : Ingredient) (hperm : request.has_add_ingredient_perm = true)
    (hr : getByPk s.db pk = some r) (hp : r.status = Status.pending) :
    accept request pk s =
      (Response.redirect (get_absolute_url { r with status := Status.accepted }),
       { s with db := save s.db { r with status := Status.accepted },
                sent_emails := s.sent_emails ++ [(pk, request)] }) ∧
    getByPk (accept request pk s).2.db pk = some { r with status := Status.accepted } ∧
    (∀ pk', pk' ≠ pk → getByPk (accept request pk s).2.db pk' = getByPk s.db pk') ∧
    (accept request pk s).2.sent_emails = s.sent_emails ++ [(pk, request)] ∧
    (accept request pk s).2.cache = s.cache := by
  have heq := accept_eq_of_found hperm hr
  have hid0 : r.id = pk := getByPk_id_eq hr
  have hid : ({ r with status := Status.accepted } : Ingredient).id = pk := by
    show r.id = pk
    exact hid0
  refine ⟨heq, ?_, ?_, ?_, ?_⟩
  · rw [heq]
    exact getByPk_save_self _ hr hid
  · intro pk' hpk'
    rw [heq]
    exact getByPk_save_other _ (fun hh => hpk' (hh.trans hid))
  · rw [heq]
  · rw [heq]

/-- Witness for C1 at the concrete pending record with primary key 1. -/
theorem accept_pending_spec_witness :
    accept sampleRequest 1 sampleState =
      (Response.redirect (get_absolute_url { sampleIngredient with status := Status.accepted }),
       { sampleState with
          db := save sampleState.db { sampleIngredient with status := Status.accepted },
          sent_emails := sampleState.sent_emails ++ [(1, sampleRequest)] }) ∧
    getByPk (accept sampleRequest 1 sampleState).2.db 1 =
      some { sampleIngredient with status := Status.accepted } ∧
    (∀ pk', pk' ≠ 1 →
      getByPk (accept sampleRequest 1 sampleState).2.db pk' = getByPk sampleState.db pk') ∧
    (accept sampleRequest 1 sampleState).2.sent_emails =
      sampleState.sent_emails ++ [(1, sampleRequest)] ∧
    (accept sampleRequest 1 sampleState).2.cache = sampleState.cache :=
  accept_pending_spec sampleRequest 1 sampleState sampleIngredient rfl (by decide) rfl

/-- Claim C2: for every existing record whose status is pending, `decline(id)`
sets the record's status to declined, persists the change, and triggers zero
notification sends. -/
theorem decline_pending_spec (request : Request) (pk : Nat) (s : ServerState)
    (r : Ingredient) (hperm : request.has_add_ingredient_perm = true)
    (hr : getByPk s.db pk = some r) (hp : r.status = Status.pending) :
    decline request pk s =
      (Response.redirect (get_absolute_url { r with status := Status.declined }),
       { s with db := save s.db { r with status := Status.declined } }) ∧
    getByPk (decline request pk s).2.db pk = some { r with status := Status.declined } ∧
    (decline request pk s).2.sent_emails = s.sent_emails := by
  have heq := decline_eq_of_found hperm hr
  have hid : ({ r with status := Status.declined } : Ingredient).id = pk := by
    show r.id = pk
    exact getByPk_id_eq hr
  refine ⟨heq, ?_, ?_⟩
  · rw [heq]
    exact getByPk_save_self _ hr hid
  · rw [heq]

/-- Witness for C2 at the concrete pending record with primary key 1. -/
theorem decline_pending_spec_witness :
    decline sampleRequest 1 sampleState =
      (Response.redirect (get_absolute_url { sampleIngredient with status := Status.declined }),
       { sampleState with
          db := save sampleState.db { sampleIngredient with status := Status.declined } }) ∧
    getByPk (decline sampleRequest 1 sampleState).2.db 1 =
      some { sampleIngredient with status := Status.declined } ∧
    (decline sampleRequest 1 sampleState).2.sent_emails = sampleState.sent_emails :=
  decline_pending_spec sampleRequest 1 sampleState sampleIngredient rfl (by decide) rfl

/-- Claim C6: for every identifier that resolves to no record, both `accept`
and `decline` fail with NotFound and leave the whole server state (storage,
cache and notification log) exactly as it was. -/
theorem accept_decline_absent (request : Request) (pk : Nat) (s : ServerState)
    (hperm : request.has_add_ingredient_perm = true)
    (habs : getByPk s.db pk = none) :
    accept request pk s = (Response.notFound, s) ∧
    decline request pk s = (Response.notFound, s) := by
  constructor
  · simp [accept, hperm, habs]
  · simp [decline, hperm, habs]

/-- Witness for C6 at the absent primary key 99. -/
theorem accept_decline_absent_witness :
    accept sampleRequest 99 sampleState = (Response.notFound, sampleState) ∧
    decline sampleRequest 99 sampleState = (Response.notFound, sampleState) :=
  accept_decline_absent sampleRequest 99 sampleState rfl (by decide)

/-- Claim C7: neither `accept` nor `decline` inspects the record's current
status: for every existing record in any status, `accept` sets the status to
accepted and re-sends the notification, `decline` sets the status to declined,
and no error is raised (both redirect). -/
theorem transitions_ignore_status (request : Request) (pk : Nat) (s : ServerState)
    (r : Ingredient) (hperm : request.has_add_ingredient_perm = true)
    (hr : getByPk s.db pk = some r) :
    (accept request pk s).1 =
      Response.redirect (get_absolute_url { r with status := Status.accepted }) ∧
    getByPk (accept request pk s).2.db pk = some { r with status := Status.accepted } ∧
    (accept request pk s).2.sent_emails = s.sent_emails ++ [(pk, request)] ∧
    (decline request pk s).1 =
      Response.redirect (get_absolute_url { r with status := Status.declined }) ∧
    getByPk (decline request pk s).2.db pk = some { r with status := Status.declined } ∧
    (decline request pk s).2.sent_emails = s.sent_emails := by
  have ha := accept_eq_of_found hperm hr
  have hd := decline_eq_of_found hperm hr
  have hida : ({ r with status := Status.accepted } : Ingredient).id = pk := by
    show r.id = pk
    exact getByPk_id_eq hr
  have hidd : ({ r with status := Status.declined } : Ingredient).id = pk := by
    show r.id = pk
    exact getByPk_id_eq hr
  refine ⟨?_, ?_, ?_, ?_, ?_, ?_⟩
  · rw [ha]
  · rw [ha]
    exact getByPk_save_self _ hr hida
  · rw [ha]
  · rw [hd]
  · rw [hd]
    exact getByPk_save_self _ hr hidd
  · rw [hd]

/-- Witness for C7 at the concrete already-accepted record with primary key 2:
re-accepting re-sends the notification and declining flips the status, with no
error. -/
theorem transitions_ignore_status_witness :
    (accept sampleRequest 2 sampleState).1 =
      Response.redirect (get_absolute_url { sampleAccepted with status := Status.accepted }) ∧
    getByPk (accept sampleRequest 2 sampleState).2.db 2 =
      some { sampleAccepted with status := Status.accepted } ∧
    (accept sampleRequest 2 sampleState).2.sent_emails =
      sampleState.sent_emails ++ [(2, sampleRequest)] ∧
    (decline sampleRequest 2 sampleState).1 =
      Response.redirect (get_absolute_url { sampleAccepted with status := Status.declined }) ∧
    getByPk (decline sampleRequest 2 sampleState).2.db 2 =
      some { sampleAccepted with status := Status.declined } ∧
    (decline sampleRequest 2 sampleState).2.sent_emails = sampleState.sent_emails :=
  transitions_ignore_status sampleRequest 2 sampleState sampleAccepted rfl (by decide)

/-- Claim C8: `decline(id)` never deletes the record (despite its docstring
"Declines and deletes"): the row still exists under the same primary key with
only its status changed, and the table keeps its size. -/
theorem decline_never_deletes (request : Request) (pk : Nat) (s : ServerState)
    (r : Ingredient) (hperm : request.has_add_ingredient_perm = true)
    (hr : getByPk s.db pk = some r) :
    getByPk (decline request pk s).2.db pk = some { r with status := Status.declined } ∧
    (decline request pk s).2.db.length = s.db.length := by
  have hd := decline_eq_of_found hperm hr
  have hid : ({ r with status := Status.declined } : Ingredient).id = pk := by
    show r.id = pk
    exact getByPk_id_eq hr
  constructor
  · rw [hd]
    exact getByPk_save_self _ hr hid
  · rw [hd]
    exact length_save _ _

/-- Witness for C8 at the concrete pending record with primary key 1. -/
theorem decline_never_deletes_witness :
    getByPk (decline sampleRequest 1 sampleState).2.db 1 =
      some { sampleIngredient with status := Status.declined } ∧
    (decline sampleRequest 1 sampleState).2.db.length = sampleState.db.length :=
  decline_never_deletes sampleRequest 1 sampleState sampleIngredient rfl (by decide)

/-- Claim C3: the single-item lookup first tries the cache under the key
derived from the identifier; on a hit it returns the cached snapshot with no
storage read and no state change; on a miss it reads storage (NotFound when
absent), writes the fetched record into the cache under the record's own
derived key, and returns it — so the cache is written only on a miss. -/
theorem view_cache_spec (request : Request) (id : Nat) (s : ServerState) :
    (∀ r, cache_get s.cache (get_ingredient_key id) = some r →
        view request id s = (ViewResult.rendered r 0 0, s)) ∧
    (cache_get s.cache (get_ingredient_key id) = none →
      (∀ r, getByPk s.db id = some r →
          view request id s =
            (ViewResult.rendered r 1 1,
             { s with cache := cache_set s.cache (get_ingredient_key_of r) r })) ∧
      (getByPk s.db id = none → view request id s = (ViewResult.notFound, s))) := by
  refine ⟨?_, fun hmiss => ⟨?_, ?_⟩⟩
  · intro r hhit
    simp [view, hhit]
  · intro r hfound
    simp [view, hmiss, hfound]
  · intro habs
    simp [view, hmiss, habs]

/-- Witness for C3: on the concrete state with an empty cache, looking up
primary key 1 misses, reads storage once and populates the cache under the
fetched record's derived key. -/
theorem view_cache_spec_witness :
    view sampleRequest 1 sampleState =
      (ViewResult.rendered sampleIngredient 1 1,
       { sampleState with
          cache := cache_set sampleState.cache
            (get_ingredient_key_of sampleIngredient) sampleIngredient }) :=
  ((view_cache_spec sampleRequest 1 sampleState).2 rfl).1 sampleIngredient (by decide)

/-- Claim C4: once a lookup has rendered a record, repeating the lookup on the
resulting state returns the same record with zero storage reads (and zero
cache writes), whatever request context the second call carries. -/
theorem lookup_cache_hit_second_call (request request2 : Request) (id : Nat)
    (s s2 : ServerState) (r : Ingredient) (reads writes : Nat)
    (h : view request id s = (ViewResult.rendered r reads writes, s2)) :
    view request2 id s2 = (ViewResult.rendered r 0 0, s2) := by
  unfold view at h
  cases hc : cache_get s.cache (get_ingredient_key id) with
  | some c =>
    rw [hc] at h
    rw [Prod.mk.injEq, ViewResult.rendered.injEq] at h
    obtain ⟨⟨hcr, -, -⟩, hs⟩ := h
    subst hcr
    subst hs
    simp [view, hc]
  | none =>
    rw [hc] at h
    cases hdb : getByPk s.db id with
    | none =>
      rw [hdb] at h
      exact absurd (congrArg Prod.fst h) (by simp)
    | some g =>
      rw [hdb] at h
      rw [Prod.mk.injEq, ViewResult.rendered.injEq] at h
      obtain ⟨⟨hg, -, -⟩, hs⟩ := h
      subst hg
      have hgid : g.id = id := getByPk_id_eq hdb
      have hhit : cache_get s2.cache (get_ingredient_key id) = some g := by
        rw [← hs]
        show cache_get (cache_set s.cache (get_ingredient_key_of g) g)
          (get_ingredient_key id) = some g
        have : get_ingredient_key_of g = get_ingredient_key id := by
          simp [get_ingredient_key_of, hgid]
        rw [this]
        exact cache_get_cache_set_self _ _ _
      simp [view, hhit]

/-- Witness for C4: the second lookup of primary key 1 after the first one on
the concrete state hits the cache and performs no storage read. -/
theorem lookup_cache_hit_second_call_witness :
    view sampleRequest 1 (view sampleRequest 1 sampleState).2 =
      (ViewResult.rendered sampleIngredient 0 0, (view sampleRequest 1 sampleState).2) :=
  lookup_cache_hit_second_call sampleRequest sampleRequest 1 sampleState
    (view sampleRequest 1 sampleState).2 sampleIngredient 1 1 (by decide)

/-- Claim C5: the pending-list query returns exactly the records whose status
is pending (so accepted and declined records are excluded), ordered by
creation timestamp descending. -/
theorem pending_queryset_spec (db : Db) :
    (∀ r, r ∈ pending_get_queryset db ↔ r ∈ db ∧ r.status = Status.pending) ∧
    (pending_get_queryset db).Pairwise
      (fun a b => b.creation_date ≤ a.creation_date) := by
  constructor
  · intro r
    simp [pending_get_queryset, List.mem_filter]
  · have htrans : ∀ a b c : Ingredient,
        (fun a b : Ingredient => decide (b.creation_date ≤ a.creation_date)) a b →
        (fun a b : Ingredient => decide (b.creation_date ≤ a.creation_date)) b c →
        (fun a b : Ingredient => decide (b.creation_date ≤ a.creation_date)) a c := by
      intro a b c hab hbc
      simp only [decide_eq_true_eq] at hab hbc ⊢
      exact le_trans hbc hab
    have htotal : ∀ a b : Ingredient,
        ((fun a b : Ingredient => decide (b.creation_date ≤ a.creation_date)) a b ||
         (fun a b : Ingredient => decide (b.creation_date ≤ a.creation_date)) b a) := by
      intro a b
      simp only [Bool.or_eq_true, decide_eq_true_eq]
      exact le_total b.creation_date a.creation_date
    have h := List.sorted_mergeSort htrans htotal
      (db.filter (fun r => r.status == Status.pending))
    exact h.imp (fun hle => by simpa using hle)

/-- Claim C9: the public ingredient overview only ever contains records whose
status is accepted (never pending, never declined), whatever the storage state
and the requester's languages. -/
theorem public_list_only_accepted (db : Db) (languages : List Nat) (r : Ingredient)
    (h : r ∈ ingredient_list_get_queryset db languages) :
    r.status = Status.accepted ∧
    r.status ≠ Status.pending ∧ r.status ≠ Status.declined := by
  have hacc : r.status = Status.accepted := by
    simp [ingredient_list_get_queryset, objects_accepted, List.mem_filter] at h
    exact h.2.2
  refine ⟨hacc, ?_, ?_⟩
  · rw [hacc]
    intro hcontra
    cases hcontra
  · rw [hacc]
    intro hcontra
    cases hcontra

/-- Witness for C9: on the concrete state, the accepted record with primary
key 2 appears in the overview for language 2 and indeed has accepted status. -/
theorem public_list_only_accepted_witness :
    sampleAccepted.status = Status.accepted ∧
    sampleAccepted.status ≠ Status.pending ∧ sampleAccepted.status ≠ Status.declined :=
  public_list_only_accepted sampleState.db [2] sampleAccepted (by decide)

/-- Claim C10: for every request by a demo (temporary) user, the ingredient
create view answers Forbidden before any form processing runs — the framework
dispatch is never consulted and no record is created (the state is returned
unchanged). -/
theorem demo_user_create_forbidden
    (superDispatch : Request → ServerState → Response × ServerState)
    (request : Request) (s : ServerState)
    (h : request.user.userprofile.is_temporary = true) :
    ingredient_create_dispatch superDispatch request s = (Response.forbidden, s) := by
  simp [ingredient_create_dispatch, h]

/-- A request by a demo (temporary) user. -/
def sampleTempRequest : Request :=
  { user := { userprofile := { is_temporary := true } }, has_add_ingredient_perm := true }

/-- A framework dispatch that would create a record, used to witness that the
demo-user gate never reaches it. -/
def sampleSuperDispatch : Request → ServerState → Response × ServerState :=
  fun _ st => (Response.redirect "/created/", { st with db := sampleIngredient :: st.db })

/-- Witness for C10: the demo user gets Forbidden and the record-creating
dispatch is never reached — the state is unchanged. -/
theorem demo_user_create_forbidden_witness :
    ingredient_create_dispatch sampleSuperDispatch sampleTempRequest sampleState =
      (Response.forbidden, sampleState) :=
  demo_user_create_forbidden sampleSuperDispatch sampleTempRequest sampleState rfl

end Wger
